import Mathlib

set_option autoImplicit false

/-!
Shallow embedding of the CardTraders backend core (chat subsystem and
payment-webhook bridge) for specification checking.

Conventions used throughout:
* Mongo ObjectIds and SQL string ids are modelled as `Nat` / `String` keys.
* Python `datetime` values are modelled as abstract `Nat` timestamps.
* Monetary amounts are modelled as `Int`; no claim checked here depends on
  floating-point rounding, only on which mutations happen and how often.
* Python truthiness of optional strings (`if x:`, `a or b`) is modelled
  explicitly: `none` and `some ""` are falsy.
* The document store and the SQL session are modelled as in-memory lists
  threaded through each handler; a handler that raises an HTTP error
  returns the state it had accumulated up to the raise (Mongo and the
  webhook handler have no cross-statement transactions).
-/

namespace CardTraders

/-- Python truthiness for an optional string: `None` and `""` are falsy. -/
def truthy : Option String → Bool
  | none => false
  | some s => s ≠ ""

/-- Python `a or b` on optional strings: returns `a` when truthy, else `b`. -/
def pyOr (a b : Option String) : Option String :=
  if truthy a then a else b

/-- Python `a or d` with a string default (e.g. `... or "unknown"`). -/
def pyOrDefault (a : Option String) (d : String) : String :=
  match a with
  | some s => if s ≠ "" then s else d
  | none => d

/-- Python `str(x)` applied to an optional string: `str(None) = "None"`. -/
def strOfOpt : Option String → String
  | some s => s
  | none => "None"

/-! ## Payment webhook bridge (`app/routers/payments.py`, `app/models/payments.py`) -/

/-- The JSON body of a webhook delivery, restricted to the keys the handler
reads (`payload.get(...)`). -/
structure WebhookPayload where
  provider : Option String := none
  source : Option String := none
  event_id : Option String := none
  id : Option String := none
  payment_id : Option String := none
  provider_payment_id : Option String := none
  event_type : Option String := none
  type : Option String := none
  order_id : Option String := none
  merchant_order_id : Option String := none
  deriving Repr, DecidableEq

/-- `payload.get("provider") or payload.get("source") or "unknown"`. -/
def WebhookPayload.providerName (pl : WebhookPayload) : String :=
  pyOrDefault (pyOr pl.provider pl.source) "unknown"

/-- `payload.get("event_id") or payload.get("id") or payload.get("payment_id")`. -/
def WebhookPayload.eventId (pl : WebhookPayload) : Option String :=
  pyOr pl.event_id (pyOr pl.id pl.payment_id)

/-- `payload.get("event_type") or payload.get("type")`. -/
def WebhookPayload.eventType (pl : WebhookPayload) : Option String :=
  pyOr pl.event_type pl.type

/-- `payload.get("payment_id") or payload.get("provider_payment_id")`. -/
def WebhookPayload.providerPaymentId (pl : WebhookPayload) : Option String :=
  pyOr pl.payment_id pl.provider_payment_id

/-- `payload.get("order_id") or payload.get("merchant_order_id")`. -/
def WebhookPayload.orderId (pl : WebhookPayload) : Option String :=
  pyOr pl.order_id pl.merchant_order_id

/-- `event_type in ("payment.succeeded", "payment.completed", "charge.succeeded")`. -/
def isSuccessEvent (t : Option String) : Bool :=
  t == some "payment.succeeded" || t == some "payment.completed" || t == some "charge.succeeded"

/-- `event_type in ("payment.refunded", "refund.succeeded")`. -/
def isRefundEvent (t : Option String) : Bool :=
  t == some "payment.refunded" || t == some "refund.succeeded"

/-- Row of the `payments` table (the columns the webhook handler touches). -/
structure Payment where
  id : String
  buyerId : String
  sellerId : String
  amount : Int
  status : String
  providerPaymentId : Option String := none
  providerRaw : Option WebhookPayload := none
  deriving Repr, DecidableEq

/-- Row of the `wallets` table. -/
structure Wallet where
  userId : String
  balance : Int
  deriving Repr, DecidableEq

/-- Row of the `ledger` table. -/
structure LedgerEntry where
  userId : String
  change : Int
  reason : String
  relatedPaymentId : Option String := none
  deriving Repr, DecidableEq

/-- Row of the `webhook_events` table; `provider_event_id` carries a unique
constraint. -/
structure WebhookEventRec where
  provider : String
  providerEventId : String
  deriving Repr, DecidableEq

/-- A Mongo chat message linked to a payment (`paymentId` + mutable `status`),
as touched by the webhook handler. -/
structure PayMsg where
  id : String
  convoId : String
  paymentId : String
  status : String
  providerInfo : Option WebhookPayload := none
  deriving Repr, DecidableEq

/-- One `ws_manager.broadcast` call issued by the webhook handler. -/
structure PaymentBroadcast where
  type : String
  convoId : String
  msgId : String
  paymentId : String
  status : String
  deriving Repr, DecidableEq

/-- Combined state visible to the webhook handler: SQL tables, the linked
Mongo messages, and the stream of broadcasts it has emitted. -/
structure PayState where
  payments : List Payment
  wallets : List Wallet
  ledger : List LedgerEntry
  webhookEvents : List WebhookEventRec
  paymentMessages : List PayMsg
  broadcasts : List PaymentBroadcast
  deriving Repr, DecidableEq

/-- The payment lookup of the handler: first by `Payment.id == order_id`,
then (only when `provider_payment_id` is truthy) by
`Payment.provider_payment_id == provider_payment_id`. -/
def findPayment (ps : List Payment) (orderId ppid : Option String) : Option Payment :=
  match orderId.bind (fun oid => ps.find? (fun p => p.id = oid)) with
  | some p => some p
  | none =>
    if truthy ppid then ppid.bind (fun t => ps.find? (fun p => p.providerPaymentId = some t))
    else none

/-- `db.query(WebhookEvent).filter(provider_event_id == s)` is non-empty. -/
def eventRecorded (evs : List WebhookEventRec) (eid : String) : Bool :=
  evs.any (fun e => e.providerEventId = eid)

/-- Insert of a `WebhookEvent` row; the unique constraint on
`provider_event_id` makes a duplicate insert fail, which the handler catches
and rolls back (state unchanged). -/
def recordEvent (evs : List WebhookEventRec) (prov eid : String) : List WebhookEventRec :=
  if eventRecorded evs eid then evs else evs ++ [⟨prov, eid⟩]

/-- Wallet credit: find-or-create the seller wallet, then add the amount
(`wallet.balance = (wallet.balance or 0.0) + float(p.amount)`). -/
def creditWallet (ws : List Wallet) (uid : String) (amt : Int) : List Wallet :=
  match ws.find? (fun w => w.userId = uid) with
  | some _ => ws.map (fun w => if w.userId = uid then { w with balance := w.balance + amt } else w)
  | none => ws ++ [⟨uid, amt⟩]

/-- Balance reported for a user (`0.0` when no wallet row exists, as in
`GET /wallet/{user_id}`). -/
def walletBalance (ws : List Wallet) (uid : String) : Int :=
  match ws.find? (fun w => w.userId = uid) with
  | some w => w.balance
  | none => 0

/-- The Mongo half of a status transition: `find_one({"paymentId": p.id})`,
`update_one` of that message's status/providerInfo, then a
`payment.updated` broadcast (both steps skipped when no message matches). -/
def updateLinkedMessage (st : PayState) (pid : String) (newStatus : String)
    (pl : WebhookPayload) : PayState :=
  match st.paymentMessages.find? (fun m => m.paymentId = pid) with
  | none => st
  | some m =>
    { st with
      paymentMessages := st.paymentMessages.map fun q =>
        if q.id = m.id then { q with status := newStatus, providerInfo := some pl } else q
      broadcasts := st.broadcasts ++ [⟨"payment.updated", m.convoId, m.id, pid, newStatus⟩] }

/-- Responses of `POST /payments/webhook` along the modelled path: both are
HTTP 200 success responses to the provider. -/
inductive WebhookResult where
  | ok
  | okAlreadyProcessed
  deriving Repr, DecidableEq

/-- `payments_webhook` (payments.py lines 264-366): the handler body after
JSON parsing and signature verification (both of which can only reject the
delivery outright, before any state is read or written). Mongo is modelled
as enabled. -/
def paymentsWebhook (st : PayState) (pl : WebhookPayload) : PayState × WebhookResult :=
  if truthy pl.eventId && eventRecorded st.webhookEvents (strOfOpt pl.eventId) then
    (st, .okAlreadyProcessed)
  else
    match findPayment st.payments pl.orderId pl.providerPaymentId with
    | none => (st, .ok)
    | some p =>
      if isSuccessEvent pl.eventType then
        let p' := { p with status := "PAID", providerPaymentId := pl.providerPaymentId,
                           providerRaw := some pl }
        let st1 : PayState :=
          { st with
            payments := st.payments.map fun q => if q.id = p.id then p' else q
            wallets := creditWallet st.wallets p.sellerId p.amount
            ledger := st.ledger ++ [⟨p.sellerId, p.amount, "sale", some p.id⟩]
            webhookEvents := recordEvent st.webhookEvents pl.providerName (strOfOpt pl.eventId) }
        (updateLinkedMessage st1 p.id "PAID" pl, .ok)
      else if isRefundEvent pl.eventType then
        let p' := { p with status := "REFUNDED", providerRaw := some pl }
        let st1 : PayState :=
          { st with
            payments := st.payments.map fun q => if q.id = p.id then p' else q
            webhookEvents := recordEvent st.webhookEvents pl.providerName (strOfOpt pl.eventId) }
        (updateLinkedMessage st1 p.id "REFUNDED" pl, .ok)
      else
        (st, .ok)

/-! ## Conversation store (`app/routers/chats.py`) -/

/-- Lexicographic comparison of code-point sequences (Python's string
order). -/
def codeLe : List Char → List Char → Bool
  | [], _ => true
  | _ :: _, [] => false
  | c :: cs, d :: ds =>
    if c.toNat < d.toNat then true
    else if d.toNat < c.toNat then false
    else codeLe cs ds

/-- Python `a <= b` on strings: lexicographic by code point (spelled out
over `String.data` so that it evaluates by `decide`). -/
def strLe (a b : String) : Bool := codeLe a.data b.data

/-- Insert a string into a `strLe`-sorted list, keeping it sorted. -/
def insertSorted (x : String) : List String → List String
  | [] => [x]
  | y :: ys => if strLe x y then x :: y :: ys else y :: insertSorted x ys

/-- Python `sorted` on a list of strings, modelled as insertion sort (on
strings any correct sort produces the same list, so stability is moot). -/
def pySorted (l : List String) : List String :=
  l.foldr insertSorted []

/-- `payload.listingId or None`: an empty listing id is normalized to `None`. -/
def normListingId (l : Option String) : Option String :=
  if truthy l then l else none

/-- A `{participant: count}` unread dictionary, keyed uniquely. -/
abbrev UnreadMap := List (String × Nat)

/-- `unread.get(p, 0)`. -/
def lookupCount : UnreadMap → String → Nat
  | [], _ => 0
  | e :: es, k => if e.fst = k then e.snd else lookupCount es k

/-- Python dict assignment `unread[k] = v`: replace the binding if the key
exists, else append it. -/
def setCount : UnreadMap → String → Nat → UnreadMap
  | [], k, v => [(k, v)]
  | e :: es, k, v => if e.fst = k then (k, v) :: es else e :: setCount es k v

/-- The unread-increment loop of `send_message`: for every participant other
than the sender, `unread[p] = int(unread.get(p, 0)) + 1`. -/
def bumpUnread (u : UnreadMap) (participants : List String) (sender : String) : UnreadMap :=
  participants.foldl
    (fun acc p => if p = sender then acc else setCount acc p (lookupCount acc p + 1)) u

/-- The `lastMessage` summary `{text, senderId, at}`. -/
structure LastMessage where
  text : String
  senderId : String
  «at» : Nat
  deriving Repr, DecidableEq

/-- A `conversations` document. -/
structure Conversation where
  id : Nat
  participants : List String
  participantsHash : String
  listingId : Option String
  createdAt : Nat
  updatedAt : Nat
  unread : UnreadMap
  lastMessage : Option LastMessage
  deriving Repr, DecidableEq

/-- A `messages` document (chat message fields written by `send_message`). -/
structure ChatMessage where
  id : Nat
  convoId : Nat
  senderId : String
  text : Option String
  imageUrl : Option String
  «at» : Nat
  status : String
  readBy : List String
  deriving Repr, DecidableEq

/-- The Mongo chat store; `nextId` is the ObjectId generator (store-assigned
ids are strictly increasing). -/
structure ChatState where
  conversations : List Conversation
  messages : List ChatMessage
  nextId : Nat
  deriving Repr, DecidableEq

/-- HTTP errors raised by the chat routes. -/
inductive ChatErr where
  | badRequest
  | notFound
  | forbidden
  deriving Repr, DecidableEq

instance instDecEqExcept {ε α : Type} [DecidableEq ε] [DecidableEq α] :
    DecidableEq (Except ε α) := fun x y =>
  match x, y with
  | .error e, .error f => decidable_of_iff (e = f) (by simp)
  | .error _, .ok _ => isFalse (by simp)
  | .ok _, .error _ => isFalse (by simp)
  | .ok a, .ok b => decidable_of_iff (a = b) (by simp)

/-- `payload.text or ""`. -/
def pyStrOrEmpty (o : Option String) : String :=
  match o with
  | some s => if s ≠ "" then s else ""
  | none => ""

/-- `POST /conversations/get-or-create`: sort the two participants, join into
the canonical hash, and upsert on `(participantsHash, listingId)`; the insert
initializes `unread` to zero for both participants, an existing match only
gets `updatedAt` refreshed. Returns the (updated) conversation. -/
def getOrCreateConversation (st : ChatState) (participants : List String)
    (listingId : Option String) (now : Nat) : ChatState × Except ChatErr Conversation :=
  if participants.length ≠ 2 then (st, .error .badRequest)
  else
    let parts := pySorted participants
    let hash := String.intercalate "|" parts
    let lid := normListingId listingId
    match st.conversations.find? (fun c => c.participantsHash = hash ∧ c.listingId = lid) with
    | some c =>
      let c' := { c with updatedAt := now }
      ({ st with conversations := st.conversations.map fun d => if d.id = c.id then c' else d },
       .ok c')
    | none =>
      let p0 := parts.getD 0 ""
      let p1 := parts.getD 1 ""
      let c : Conversation :=
        { id := st.nextId, participants := parts, participantsHash := hash, listingId := lid,
          createdAt := now, updatedAt := now,
          unread := setCount (setCount [] p0 0) p1 0, lastMessage := none }
      ({ st with conversations := st.conversations ++ [c], nextId := st.nextId + 1 }, .ok c)

/-- `POST /{convoId}/messages` (`send_message`): 404 when the conversation is
missing, 403 when the sender is not a participant; otherwise insert the
message, bump unread for the other participants, and refresh
`lastMessage`/`updatedAt`. Returns the new message id. -/
def sendMessage (st : ChatState) (convoId : Nat) (senderId : String)
    (text imageUrl : Option String) (now : Nat) : ChatState × Except ChatErr Nat :=
  match st.conversations.find? (fun c => c.id = convoId) with
  | none => (st, .error .notFound)
  | some conv =>
    if senderId ∈ conv.participants then
      let msg : ChatMessage :=
        { id := st.nextId, convoId := conv.id, senderId := senderId, text := text,
          imageUrl := imageUrl, «at» := now, status := "sent", readBy := [senderId] }
      let unread' := bumpUnread conv.unread conv.participants senderId
      let conv' := { conv with
        lastMessage := some ⟨pyStrOrEmpty text, senderId, now⟩,
        updatedAt := now, unread := unread' }
      ({ st with
          messages := st.messages ++ [msg],
          conversations := st.conversations.map fun d => if d.id = conv.id then conv' else d,
          nextId := st.nextId + 1 }, .ok msg.id)
    else (st, .error .forbidden)

/-- `POST /{convoId}/read` (`mark_read`): `$set {unread.readerId: 0}` on the
matched conversation, 404 when none matches. -/
def markRead (st : ChatState) (convoId : Nat) (readerId : String) :
    ChatState × Except ChatErr Unit :=
  match st.conversations.find? (fun c => c.id = convoId) with
  | none => (st, .error .notFound)
  | some conv =>
    let conv' := { conv with unread := setCount conv.unread readerId 0 }
    ({ st with conversations := st.conversations.map fun d => if d.id = conv.id then conv' else d },
     .ok ())

/-- Insert a message into a list sorted by id descending. -/
def insertByIdDesc (m : ChatMessage) : List ChatMessage → List ChatMessage
  | [] => [m]
  | y :: ys => if y.id ≤ m.id then m :: y :: ys else y :: insertByIdDesc m ys

/-- The Mongo `sort("_id", -1)`, modelled as insertion sort (ids are unique,
so any correct sort produces the same list). -/
def sortByIdDesc (l : List ChatMessage) : List ChatMessage :=
  l.foldr insertByIdDesc []

/-- `GET /{convoId}/messages` (`list_messages`): filter by conversation and
(optionally) `_id < beforeId`, sort newest-first, take `limit`, then reverse
to chronological order. -/
def listMessages (st : ChatState) (convoId : Nat) (beforeId : Option Nat)
    (limit : Nat) : List ChatMessage :=
  let q := st.messages.filter fun m =>
    decide (m.convoId = convoId) &&
      match beforeId with | some b => decide (m.id < b) | none => true
  (((sortByIdDesc q).take limit).reverse)

/-! ## WebSocket connection registry (`ChatWSManager` in `app/routers/chats.py`)

A connection handle is modelled as a `Nat`; whether `ws.send_json` raises for
a given handle is modelled by a predicate `sendOk`.  All registry operations
are total functions, mirroring that `disconnect` and `broadcast` swallow
every per-connection exception. -/

/-- Registry state: `convoId -> set of websockets` (a Python dict whose keys
are unique; the set is modelled as a duplicate-free list). -/
structure WSManager where
  active : List (String × List Nat)
  deriving Repr, DecidableEq

/-- `self.active.get(convo_id)` (distinguishes a missing key from an empty
set, as the Python code does). -/
def WSManager.lookup (m : WSManager) (cid : String) : Option (List Nat) :=
  (m.active.find? (fun e => e.fst = cid)).map (fun e => e.snd)

/-- `self.active.pop(convo_id, None)`. -/
def removeKey (l : List (String × List Nat)) (cid : String) : List (String × List Nat) :=
  l.filter (fun e => ¬ e.fst = cid)

/-- In-place mutation of the set stored under an existing key. -/
def setKey (l : List (String × List Nat)) (cid : String) (v : List Nat) :
    List (String × List Nat) :=
  l.map (fun e => if e.fst = cid then (cid, v) else e)

/-- `connect`: `self.active.setdefault(convo_id, set()).add(ws)` (the
`ws.accept()` transport call has no registry effect). -/
def WSManager.connect (m : WSManager) (cid : String) (ws : Nat) : WSManager :=
  match m.lookup cid with
  | some conns => if ws ∈ conns then m else ⟨setKey m.active cid (conns ++ [ws])⟩
  | none => ⟨m.active ++ [(cid, [ws])]⟩

/-- `disconnect`: remove the handle when present, and pop the conversation
key when its set is (or becomes) empty; every error is swallowed. -/
def WSManager.disconnect (m : WSManager) (cid : String) (ws : Nat) : WSManager :=
  match m.lookup cid with
  | none => m
  | some conns =>
    if conns ≠ [] ∧ ws ∈ conns then
      let conns' := conns.erase ws
      if conns' = [] then ⟨removeKey m.active cid⟩ else ⟨setKey m.active cid conns'⟩
    else if conns = [] then ⟨removeKey m.active cid⟩
    else m

/-- `broadcast`: iterate over a snapshot `list(self.active.get(convo_id, set()))`;
each successful `send_json` delivers `data` to that connection, each failing
one is dropped via `disconnect` and the loop continues.  Returns the final
registry and the deliveries made, in order. -/
def WSManager.broadcast {D : Type} (m : WSManager) (cid : String) (data : D)
    (sendOk : Nat → Bool) : WSManager × List (Nat × D) :=
  let conns := (m.lookup cid).getD []
  conns.foldl
    (fun acc ws =>
      if sendOk ws then (acc.1, acc.2 ++ [(ws, data)])
      else (acc.1.disconnect cid ws, acc.2))
    (m, [])

/-! ## Live-event envelopes (`ws_manager.broadcast(...)` call sites)

The JSON values pushed to live subscribers, modelled structurally. -/

/-- A JSON value (the fragment these frames use). -/
inductive Jx where
  | str : String → Jx
  | boolean : Bool → Jx
  | nullv : Jx
  | obj : List (String × Jx) → Jx

/-- Top-level keys of a JSON object. -/
def jKeys : Jx → List String
  | .obj kvs => kvs.map Prod.fst
  | _ => []

/-- Field lookup in a JSON object. -/
def jGet (j : Jx) (k : String) : Option Jx :=
  match j with
  | .obj kvs => (kvs.find? (fun e => e.fst = k)).map (fun e => e.snd)
  | _ => none

/-- `x or None` rendered into JSON: falsy strings become `null`. -/
def jStrOrNull (o : Option String) : Jx :=
  if truthy o then .str (o.getD "") else .nullv

/-- The `new_message` frame built by `send_message` (lines 220-232):
`{"type": "new_message", "convoId": ..., "message": {...}}`. -/
def newMessageFrame (convoId newId senderId : String) (text imageUrl : Option String)
    (atIso : String) : Jx :=
  .obj [("type", .str "new_message"), ("convoId", .str convoId),
        ("message", .obj
          [("id", .str newId), ("convoId", .str convoId), ("senderId", .str senderId),
           ("text", jStrOrNull text), ("imageUrl", jStrOrNull imageUrl),
           ("at", .str atIso), ("status", .str "sent")])]

/-- The `read` frame built by `mark_read` (line 253). -/
def readFrame (convoId readerId : String) : Jx :=
  .obj [("type", .str "read"), ("convoId", .str convoId), ("readerId", .str readerId)]

/-- The `typing` frame built by `chat_ws` (line 374). -/
def typingFrame (convoId userId : String) (isTyping : Bool) : Jx :=
  .obj [("type", .str "typing"), ("convoId", .str convoId), ("userId", .str userId),
        ("isTyping", .boolean isTyping)]

/-! ## Derived notions and concrete demonstration states -/

/-- Conversation lookup by id (`find_one({"_id": convoId})`). -/
def findConvo (st : ChatState) (cid : Nat) : Option Conversation :=
  st.conversations.find? (fun c => c.id = cid)

/-- The unread count a reader observes for a conversation (when it exists). -/
def unreadOf (st : ChatState) (cid : Nat) (u : String) : Option Nat :=
  (findConvo st cid).map (fun c => lookupCount c.unread u)

/-- `k` consecutive `send_message` calls by the same sender. -/
def sendK (st : ChatState) (cid : Nat) (sender : String) (t : Option String) (now : Nat) :
    Nat → ChatState
  | 0 => st
  | Nat.succ k => (sendMessage (sendK st cid sender t now k) cid sender t none now).1

/-- `n` consecutive `mark_read` calls by the same reader. -/
def markReadK (st : ChatState) (cid : Nat) (reader : String) : Nat → ChatState
  | 0 => st
  | Nat.succ n => (markRead (markReadK st cid reader n) cid reader).1

/-- The two participants handed to `get-or-create` in one of the two orders. -/
def pairOf (a b : String) (flip : Bool) : List String :=
  if flip then [b, a] else [a, b]

/-- A sequence of `get-or-create` calls for a fixed pair and listing id,
returning the final state and each call's response. -/
def gocCalls (a b : String) (lid : Option String) :
    ChatState → List (Bool × Nat) → ChatState × List (Except ChatErr Conversation)
  | st, [] => (st, [])
  | st, (f, t) :: rest =>
    let r := getOrCreateConversation st (pairOf a b f) lid t
    let rs := gocCalls a b lid r.1 rest
    (rs.1, r.2 :: rs.2)

/-- The conversation document created by the insert branch of
`get-or-create` for sorted participants `parts`. -/
def mkConvo (nid : Nat) (parts : List String) (lid : Option String) (t : Nat) : Conversation :=
  { id := nid, participants := parts,
    participantsHash := String.intercalate "|" parts,
    listingId := normListingId lid, createdAt := t, updatedAt := t,
    unread := setCount (setCount [] (parts.getD 0 "") 0) (parts.getD 1 "") 0,
    lastMessage := none }

/-- An empty chat store. -/
def emptyChat : ChatState := ⟨[], [], 0⟩

/-- A store holding one freshly created conversation between alice and bob. -/
def demoConvoState : ChatState :=
  (getOrCreateConversation emptyChat ["bob", "alice"] none 1).1

/-- The demo conversation after alice sent m1..m5, in order. -/
def demoFiveState : ChatState :=
  let s1 := (sendMessage demoConvoState 0 "alice" (some "m1") none 2).1
  let s2 := (sendMessage s1 0 "alice" (some "m2") none 3).1
  let s3 := (sendMessage s2 0 "alice" (some "m3") none 4).1
  let s4 := (sendMessage s3 0 "alice" (some "m4") none 5).1
  (sendMessage s4 0 "alice" (some "m5") none 6).1

/-- A payment table holding a single already-PAID payment. -/
def paidPayState : PayState :=
  { payments := [{ id := "p1", buyerId := "b", sellerId := "s", amount := 100, status := "PAID" }],
    wallets := [], ledger := [], webhookEvents := [], paymentMessages := [], broadcasts := [] }

/-- A refund-type webhook delivery for that payment with a fresh event id. -/
def refundPayload : WebhookPayload :=
  { event_id := some "e2", event_type := some "payment.refunded", order_id := some "p1" }

/-! ## Helper lemmas -/

theorem lookupCount_setCount_self (u : UnreadMap) (k : String) (v : Nat) :
    lookupCount (setCount u k v) k = v := by
  induction u with
  | nil => simp [setCount, lookupCount]
  | cons e es ih =>
    by_cases h : e.fst = k
    · simp [setCount, lookupCount, h]
    · simp [setCount, lookupCount, h, ih]

theorem lookupCount_setCount_ne (u : UnreadMap) (k k' : String) (v : Nat) (h : k' ≠ k) :
    lookupCount (setCount u k v) k' = lookupCount u k' := by
  induction u with
  | nil => simp [setCount, lookupCount, Ne.symm h]
  | cons e es ih =>
    by_cases he : e.fst = k
    · simp [setCount, lookupCount, he, Ne.symm h]
    · by_cases he' : e.fst = k'
      · simp [setCount, lookupCount, he, he', h]
      · simp [setCount, lookupCount, he, he', ih]

/-- Replacing the found conversation (keeping its id) is seen by a later
lookup of the same id. -/
theorem find?_replace (l : List Conversation) (cid : Nat) (c c' : Conversation)
    (h : l.find? (fun d => d.id = cid) = some c) (hid : c'.id = c.id) :
    (l.map fun d => if d.id = c.id then c' else d).find? (fun d => d.id = cid) = some c' := by
  have hcid : c.id = cid := by
    have := List.find?_some h
    simpa using this
  induction l with
  | nil => simp at h
  | cons a l ih =>
    by_cases ha : a.id = cid
    · have hc : c = a := by
        rw [List.find?_cons_of_pos _ (by simpa using ha)] at h
        exact (Option.some.injEq _ _ ▸ h.symm)
      subst hc
      simp [ha, List.find?_cons_of_pos, hid, hcid]
    · rw [List.find?_cons_of_neg _ (by simpa using ha)] at h
      have hne : ¬ a.id = c.id := by rw [hcid]; exact ha
      simp only [List.map_cons, if_neg hne]
      rw [List.find?_cons_of_neg _ (by simpa using ha)]
      exact ih h

/-- The unread-increment loop over two distinct participants, run for either
of them as the sender, bumps the other participant's count by one. -/
theorem bumpUnread_pair_other (u : UnreadMap) (x y s r : String)
    (hxy : x ≠ y)
    (hsr : (s = x ∧ r = y) ∨ (s = y ∧ r = x)) :
    lookupCount (bumpUnread u [x, y] s) r = lookupCount u r + 1 := by
  rcases hsr with ⟨hs, hr⟩ | ⟨hs, hr⟩
  · subst hs
    subst hr
    simp [bumpUnread, Ne.symm hxy, lookupCount_setCount_self]
  · subst hs
    subst hr
    simp [bumpUnread, hxy, lookupCount_setCount_self]

/-! ## Claim theorems -/

/-- C4: for every existing conversation and every sender that is not one of
its participants, `send_message` fails with Forbidden and performs no store
mutation (the returned state is exactly the input state, so no message is
inserted and `updatedAt`/`unread`/`lastMessage` are unchanged). -/
theorem send_message_nonparticipant_forbidden (st : ChatState) (cid : Nat) (sender : String)
    (text imageUrl : Option String) (now : Nat) (conv : Conversation)
    (hfind : findConvo st cid = some conv)
    (hmem : sender ∉ conv.participants) :
    sendMessage st cid sender text imageUrl now = (st, .error .forbidden) := by
  simp only [findConvo] at hfind
  simp [sendMessage, hfind, hmem]

theorem send_message_nonparticipant_forbidden_witness :
    sendMessage demoConvoState 0 "carol" (some "hi") none 9
      = (demoConvoState, .error .forbidden) :=
  send_message_nonparticipant_forbidden demoConvoState 0 "carol" (some "hi") none 9
    { id := 0, participants := ["alice", "bob"], participantsHash := "alice|bob",
      listingId := none, createdAt := 1, updatedAt := 1,
      unread := [("alice", 0), ("bob", 0)], lastMessage := none }
    (by decide) (by decide)

/-- C9 counterexample: the claim "for every request in which both text and
imageUrl are missing or empty, no message is inserted" is false — a request
with both fields absent from a participant of an existing conversation
succeeds and inserts a message with `text = null`, `imageUrl = null`. -/
theorem empty_message_inserted_counterexample :
    (sendMessage demoConvoState 0 "alice" none none 9).2 = .ok 1 ∧
    ((sendMessage demoConvoState 0 "alice" none none 9).1.messages.map
      (fun m => (m.senderId, m.text, m.imageUrl))) = [("alice", none, none)] := by
  decide

/-- C9 (amended): `send_message` performs no emptiness validation at all:
whenever the conversation exists and the sender is a participant, the
message is inserted with `text` and `imageUrl` exactly as supplied — in
particular also when both are missing or empty. -/
theorem send_message_no_emptiness_validation (st : ChatState) (cid : Nat) (sender : String)
    (text imageUrl : Option String) (now : Nat) (conv : Conversation)
    (hfind : findConvo st cid = some conv)
    (hmem : sender ∈ conv.participants) :
    (sendMessage st cid sender text imageUrl now).2 = .ok st.nextId ∧
    (sendMessage st cid sender text imageUrl now).1.messages
      = st.messages ++ [{ id := st.nextId, convoId := conv.id, senderId := sender,
                          text := text, imageUrl := imageUrl, «at» := now, status := "sent",
                          readBy := [sender] }] := by
  simp only [findConvo] at hfind
  simp [sendMessage, hfind, hmem]

theorem send_message_no_emptiness_validation_witness :
    (sendMessage demoConvoState 0 "alice" none none 9).2 = .ok demoConvoState.nextId ∧
    (sendMessage demoConvoState 0 "alice" none none 9).1.messages
      = demoConvoState.messages ++
          [{ id := demoConvoState.nextId, convoId := 0, senderId := "alice",
             text := none, imageUrl := none, «at» := 9, status := "sent",
             readBy := ["alice"] }] :=
  send_message_no_emptiness_validation demoConvoState 0 "alice" none none 9
    { id := 0, participants := ["alice", "bob"], participantsHash := "alice|bob",
      listingId := none, createdAt := 1, updatedAt := 1,
      unread := [("alice", 0), ("bob", 0)], lastMessage := none }
    (by decide) (by decide)

/-- C10: a webhook delivery whose payload matches no stored payment, or whose
event type is not one of the recognized success/refund types, returns a
success response to the provider and leaves all payment/wallet/ledger state
unchanged. -/
theorem unknown_event_ignored (st : PayState) (pl : WebhookPayload)
    (h : findPayment st.payments pl.orderId pl.providerPaymentId = none ∨
         (isSuccessEvent pl.eventType = false ∧ isRefundEvent pl.eventType = false)) :
    (paymentsWebhook st pl).1 = st ∧
    ((paymentsWebhook st pl).2 = .ok ∨ (paymentsWebhook st pl).2 = .okAlreadyProcessed) := by
  unfold paymentsWebhook
  by_cases hg : (truthy pl.eventId && eventRecorded st.webhookEvents (strOfOpt pl.eventId)) = true
  · simp [hg]
  · rcases h with h | ⟨h1, h2⟩
    · simp [hg, h]
    · cases hp : findPayment st.payments pl.orderId pl.providerPaymentId with
      | none => simp [hg, hp]
      | some p => simp [hg, hp, h1, h2]

theorem unknown_event_ignored_witness :
    (paymentsWebhook ⟨[], [], [], [], [], []⟩ refundPayload).1 = ⟨[], [], [], [], [], []⟩ ∧
    ((paymentsWebhook ⟨[], [], [], [], [], []⟩ refundPayload).2 = .ok ∨
     (paymentsWebhook ⟨[], [], [], [], [], []⟩ refundPayload).2 = .okAlreadyProcessed) :=
  unknown_event_ignored ⟨[], [], [], [], [], []⟩ refundPayload (Or.inl (by decide))

/-- C8 counterexample: the claim that every `new_message` frame carries a
`conversationId` field and a `payload` field is false — the frame built by
`send_message` has neither key (the code uses `convoId` and `message`). -/
theorem envelope_key_counterexample :
    jGet (newMessageFrame "c0" "m0" "alice" (some "hi") none "2024-01-01T00:00:00+00:00")
        "conversationId" = none ∧
    jGet (newMessageFrame "c0" "m0" "alice" (some "hi") none "2024-01-01T00:00:00+00:00")
        "payload" = none := by
  exact ⟨rfl, rfl⟩

/-- C8 (amended): every frame carries `type` and `convoId` (not
`conversationId`); `new_message` frames nest the payload under the `message`
key with fields id, convoId, senderId, text, imageUrl, at, status; `read`
and `typing` frames carry their remaining fields at top level rather than
under a payload key. -/
theorem envelope_shape_amended (convoId newId senderId : String) (text imageUrl : Option String)
    (atIso readerId userId : String) (isTyping : Bool) :
    jKeys (newMessageFrame convoId newId senderId text imageUrl atIso)
      = ["type", "convoId", "message"] ∧
    jGet (newMessageFrame convoId newId senderId text imageUrl atIso) "message"
      = some (.obj [("id", .str newId), ("convoId", .str convoId), ("senderId", .str senderId),
                    ("text", jStrOrNull text), ("imageUrl", jStrOrNull imageUrl),
                    ("at", .str atIso), ("status", .str "sent")]) ∧
    jKeys (readFrame convoId readerId) = ["type", "convoId", "readerId"] ∧
    jKeys (typingFrame convoId userId isTyping) = ["type", "convoId", "userId", "isTyping"] :=
  ⟨rfl, rfl, rfl, rfl⟩

/-- C2 counterexample: the claim that PAID is terminal under all webhook
deliveries (including fresh event ids) is false — a refund-type delivery
with a fresh event id moves a PAID payment to REFUNDED and reports success. -/
theorem paid_not_terminal_counterexample :
    paidPayState.payments.map (fun p => p.status) = ["PAID"] ∧
    ((paymentsWebhook paidPayState refundPayload).1.payments.map (fun p => p.status))
      = ["REFUNDED"] ∧
    (paymentsWebhook paidPayState refundPayload).2 = .ok := by
  decide

/-- One `send_message` by either participant of a two-party conversation
bumps the other participant's unread count by one and keeps the
participants. -/
theorem sendMessage_step (st : ChatState) (cid : Nat) (x y s r : String) (conv : Conversation)
    (t img : Option String) (now : Nat)
    (hfind : findConvo st cid = some conv)
    (hparts : conv.participants = [x, y])
    (hxy : x ≠ y)
    (hsr : (s = x ∧ r = y) ∨ (s = y ∧ r = x)) :
    ∃ conv', findConvo (sendMessage st cid s t img now).1 cid = some conv' ∧
      conv'.participants = [x, y] ∧
      lookupCount conv'.unread r = lookupCount conv.unread r + 1 := by
  have hmem : s ∈ conv.participants := by
    rcases hsr with ⟨hs, _⟩ | ⟨hs, _⟩ <;> simp [hparts, hs]
  simp only [findConvo] at hfind ⊢
  simp only [sendMessage, hfind, hmem, if_pos]
  refine ⟨_, find?_replace st.conversations cid conv _ hfind rfl, hparts, ?_⟩
  simp only [hparts]
  exact bumpUnread_pair_other conv.unread x y s r hxy hsr

/-- One `mark_read` on an existing conversation succeeds and zeroes the
reader's unread entry, leaving the rest of the document unchanged. -/
theorem markRead_step (st : ChatState) (cid : Nat) (r : String) (conv : Conversation)
    (hfind : findConvo st cid = some conv) :
    (markRead st cid r).2 = .ok () ∧
    findConvo (markRead st cid r).1 cid = some { conv with unread := setCount conv.unread r 0 } := by
  simp only [findConvo] at hfind ⊢
  simp only [markRead, hfind]
  exact ⟨by simp, find?_replace _ _ _ _ hfind rfl⟩

/-- C3: in a conversation whose two stored participants are distinct, with
sender a and reader b being those two participants in either role, and b's
unread entry starting at 0: k `send_message` calls by a with no intervening
`mark_read` leave b's unread count at k; one `mark_read` by b succeeds and
resets it to 0; and any number of further `mark_read` calls keep it at 0 and
each returns success (idempotent, no error). -/
theorem unread_accounting (st : ChatState) (cid : Nat) (x y a b : String)
    (conv : Conversation) (t : Option String) (now : Nat) (k : Nat)
    (hfind : findConvo st cid = some conv)
    (hparts : conv.participants = [x, y])
    (hxy : x ≠ y)
    (hab : (a = x ∧ b = y) ∨ (a = y ∧ b = x))
    (h0 : lookupCount conv.unread b = 0) :
    unreadOf (sendK st cid a t now k) cid b = some k ∧
    (markRead (sendK st cid a t now k) cid b).2 = .ok () ∧
    ∀ n,
      unreadOf (markReadK (markRead (sendK st cid a t now k) cid b).1 cid b n) cid b = some 0 ∧
      (markRead (markReadK (markRead (sendK st cid a t now k) cid b).1 cid b n) cid b).2
        = .ok () := by
  have hsend : ∀ j, ∃ convj, findConvo (sendK st cid a t now j) cid = some convj ∧
      convj.participants = [x, y] ∧ lookupCount convj.unread b = j := by
    intro j
    induction j with
    | zero => exact ⟨conv, hfind, hparts, h0⟩
    | succ j ih =>
      obtain ⟨convj, hf, hp, hu⟩ := ih
      obtain ⟨conv', hf', hp', hu'⟩ := sendMessage_step _ _ _ _ _ _ _ t none now hf hp hxy hab
      exact ⟨conv', hf', hp', by rw [hu', hu]⟩
  obtain ⟨convk, hf, hp, hu⟩ := hsend k
  have h1 := (markRead_step (sendK st cid a t now k) cid b convk hf).2
  have hinv : ∀ n, ∃ c,
      findConvo (markReadK (markRead (sendK st cid a t now k) cid b).1 cid b n) cid = some c ∧
      lookupCount c.unread b = 0 := by
    intro n
    induction n with
    | zero => exact ⟨_, h1, lookupCount_setCount_self _ _ _⟩
    | succ n ih =>
      obtain ⟨c, hc, hcu⟩ := ih
      exact ⟨_, (markRead_step _ _ _ _ hc).2, lookupCount_setCount_self _ _ _⟩
  refine ⟨by simp [unreadOf, hf, hu], (markRead_step _ _ _ _ hf).1, ?_⟩
  intro n
  obtain ⟨c, hc, hcu⟩ := hinv n
  exact ⟨by simp [unreadOf, hc, hcu], (markRead_step _ _ _ _ hc).1⟩

theorem unread_accounting_witness :
    unreadOf (sendK demoConvoState 0 "bob" (some "hi") 7 2) 0 "alice" = some 2 ∧
    unreadOf (markReadK (markRead (sendK demoConvoState 0 "bob" (some "hi") 7 2) 0 "alice").1
      0 "alice" 3) 0 "alice" = some 0 :=
  ⟨(unread_accounting demoConvoState 0 "alice" "bob" "bob" "alice"
      { id := 0, participants := ["alice", "bob"], participantsHash := "alice|bob",
        listingId := none, createdAt := 1, updatedAt := 1,
        unread := [("alice", 0), ("bob", 0)], lastMessage := none }
      (some "hi") 7 2 (by decide) (by decide) (by decide) (by decide) (by decide)).1,
   ((unread_accounting demoConvoState 0 "alice" "bob" "bob" "alice"
      { id := 0, participants := ["alice", "bob"], participantsHash := "alice|bob",
        listingId := none, createdAt := 1, updatedAt := 1,
        unread := [("alice", 0), ("bob", 0)], lastMessage := none }
      (some "hi") 7 2 (by decide) (by decide) (by decide) (by decide) (by decide)).2.2 3).1⟩

theorem codeLe_total (l1 l2 : List Char) : codeLe l1 l2 = true ∨ codeLe l2 l1 = true := by
  induction l1 generalizing l2 with
  | nil => left; rfl
  | cons c cs ih =>
    cases l2 with
    | nil => right; rfl
    | cons d ds =>
      rcases Nat.lt_trichotomy c.toNat d.toNat with h | h | h
      · left; simp [codeLe, h]
      · have h1 : ¬ c.toNat < d.toNat := by omega
        have h2 : ¬ d.toNat < c.toNat := by omega
        rcases ih ds with hcd | hdc
        · left; simp [codeLe, h1, h2, hcd]
        · right; simp [codeLe, h1, h2, hdc]
      · right; simp [codeLe, h]

theorem codeLe_antisymm (l1 l2 : List Char) (h12 : codeLe l1 l2 = true)
    (h21 : codeLe l2 l1 = true) : l1 = l2 := by
  induction l1 generalizing l2 with
  | nil =>
    cases l2 with
    | nil => rfl
    | cons d ds => simp [codeLe] at h21
  | cons c cs ih =>
    cases l2 with
    | nil => simp [codeLe] at h12
    | cons d ds =>
      by_cases h : c.toNat < d.toNat
      · have h' : ¬ d.toNat < c.toNat := by omega
        simp [codeLe, h, h'] at h21
      · by_cases h' : d.toNat < c.toNat
        · simp [codeLe, h, h'] at h12
        · have heq : c.toNat = d.toNat := by omega
          have hc : c = d := Char.ext (UInt32.ext heq)
          simp [codeLe, h, h'] at h12 h21
          rw [hc, ih ds h12 h21]

theorem strLe_total (a b : String) : strLe a b = true ∨ strLe b a = true :=
  codeLe_total a.data b.data

theorem strLe_antisymm (a b : String) (h1 : strLe a b = true) (h2 : strLe b a = true) :
    a = b :=
  String.ext (codeLe_antisymm a.data b.data h1 h2)

theorem pySorted_pair (a b : String) :
    pySorted [a, b] = if strLe a b then [a, b] else [b, a] := rfl

/-- Sorting the two participants is order-insensitive: the canonical key is
the same whichever way the pair is given. -/
theorem pySorted_pair_comm (a b : String) (hab : a ≠ b) :
    pySorted [b, a] = pySorted [a, b] := by
  rw [pySorted_pair, pySorted_pair]
  by_cases h1 : strLe a b = true
  · have h2 : strLe b a = false := by
      cases h2 : strLe b a
      · rfl
      · exact absurd (strLe_antisymm b a h2 h1) (Ne.symm hab)
    simp [h1, h2]
  · have h1' : strLe a b = false := by
      cases h : strLe a b
      · rfl
      · exact absurd h h1
    have h2 : strLe b a = true := by
      rcases strLe_total a b with h | h
      · exact absurd h h1
      · exact h
    simp [h1', h2]

theorem lookupCount_all_zero (u : UnreadMap) (h : ∀ e ∈ u, e.snd = 0) (k : String) :
    lookupCount u k = 0 := by
  induction u with
  | nil => rfl
  | cons e es ih =>
    by_cases hk : e.fst = k
    · simpa [lookupCount, hk] using h e (by simp)
    · simp only [lookupCount, hk, if_neg hk]
      exact ih (fun e' he' => h e' (by simp [he']))

theorem mem_setCount (u : UnreadMap) (k : String) (v : Nat) :
    ∀ e ∈ setCount u k v, e ∈ u ∨ e = (k, v) := by
  induction u with
  | nil => intro e he; simp [setCount] at he; right; exact he
  | cons a as ih =>
    intro e he
    by_cases h : a.fst = k
    · simp only [setCount, if_pos h, List.mem_cons] at he
      rcases he with he | he
      · right; exact he
      · left; simp [he]
    · simp only [setCount, if_neg h, List.mem_cons] at he
      rcases he with he | he
      · left; simp [he]
      · rcases ih e he with h' | h'
        · left; simp [h']
        · right; exact h'

/-- All entries of the freshly initialized unread dictionary are zero. -/
theorem lookupCount_zero_init (p0 p1 k : String) :
    lookupCount (setCount (setCount [] p0 0) p1 0) k = 0 := by
  apply lookupCount_all_zero
  intro e he
  rcases mem_setCount _ _ _ e he with h | h
  · rcases mem_setCount _ _ _ e h with h' | h'
    · simp at h'
    · rw [h']
  · rw [h]

/-- The insert branch of `get-or-create`, given that no conversation matches
the canonical key. -/
theorem goc_create (st0 : ChatState) (a b : String) (lid : Option String) (f : Bool) (t : Nat)
    (hnokey : ∀ d ∈ st0.conversations,
      ¬ (d.participantsHash = String.intercalate "|" (pySorted (pairOf a b f)) ∧
         d.listingId = normListingId lid)) :
    getOrCreateConversation st0 (pairOf a b f) lid t
      = ({ st0 with
            conversations :=
              st0.conversations ++ [mkConvo st0.nextId (pySorted (pairOf a b f)) lid t],
            nextId := st0.nextId + 1 },
         .ok (mkConvo st0.nextId (pySorted (pairOf a b f)) lid t)) := by
  have hlen : ¬ ((pairOf a b f).length ≠ 2) := by cases f <;> simp [pairOf]
  have hfind : st0.conversations.find?
      (fun c => c.participantsHash = String.intercalate "|" (pySorted (pairOf a b f)) ∧
                c.listingId = normListingId lid) = none := by
    rw [List.find?_eq_none]
    intro d hd
    simpa using hnokey d hd
  simp only [getOrCreateConversation]
  rw [if_neg hlen]
  simp only [hfind]
  rfl

/-- The match branch of `get-or-create` on a state holding the canonical
conversation (with some `updatedAt`) plus unrelated documents: only
`updatedAt` is refreshed, and the call returns that conversation. -/
theorem goc_step (base : List Conversation) (ms : List ChatMessage) (nid : Nat)
    (a b : String) (lid : Option String) (c0 : Conversation) (u t : Nat) (f : Bool)
    (hab : a ≠ b)
    (hhash : c0.participantsHash = String.intercalate "|" (pySorted [a, b]))
    (hlid : c0.listingId = normListingId lid)
    (hnokey : ∀ d ∈ base,
      ¬ (d.participantsHash = c0.participantsHash ∧ d.listingId = c0.listingId))
    (hfresh : ∀ d ∈ base, d.id ≠ c0.id) :
    getOrCreateConversation ⟨base ++ [{ c0 with updatedAt := u }], ms, nid⟩ (pairOf a b f) lid t
      = (⟨base ++ [{ c0 with updatedAt := t }], ms, nid⟩, .ok { c0 with updatedAt := t }) := by
  have hlen : ¬ ((pairOf a b f).length ≠ 2) := by cases f <;> simp [pairOf]
  have hsort : pySorted (pairOf a b f) = pySorted [a, b] := by
    cases f
    · rfl
    · exact pySorted_pair_comm a b hab
  have hbase : base.find?
      (fun c => c.participantsHash = String.intercalate "|" (pySorted (pairOf a b f)) ∧
                c.listingId = normListingId lid) = none := by
    rw [List.find?_eq_none]
    intro d hd
    rw [hsort, ← hhash, ← hlid]
    simpa using hnokey d hd
  have hhead : (({ c0 with updatedAt := u } : Conversation).participantsHash
        = String.intercalate "|" (pySorted (pairOf a b f)) ∧
      ({ c0 with updatedAt := u } : Conversation).listingId = normListingId lid) := by
    rw [hsort]
    exact ⟨hhash, hlid⟩
  have hfind : ((base ++ [{ c0 with updatedAt := u }]).find?
      (fun c => c.participantsHash = String.intercalate "|" (pySorted (pairOf a b f)) ∧
                c.listingId = normListingId lid)) = some { c0 with updatedAt := u } := by
    rw [List.find?_append, hbase]
    simp only [Option.or]
    rw [List.find?_cons_of_pos _ (by simpa using hhead)]
  have hmap : ∀ d ∈ base,
      (if d.id = ({ c0 with updatedAt := u } : Conversation).id
        then { ({ c0 with updatedAt := u } : Conversation) with updatedAt := t } else d) = d := by
    intro d hd
    have hne : ¬ d.id = c0.id := hfresh d hd
    simp [hne]
  have h1 : base.map (fun d => if d.id = c0.id then { c0 with updatedAt := t } else d)
      = base :=
    (List.map_congr_left (fun d hd => by simp [hfresh d hd])).trans (List.map_id base)
  simp only [getOrCreateConversation]
  rw [if_neg hlen]
  simp only [hfind]
  refine Prod.ext ?_ rfl
  rw [List.map_append, h1]
  simp

/-- Every `get-or-create` call after the creating one returns the created
conversation with only `updatedAt` refreshed, and the store keeps exactly
the one canonical document (plus the untouched unrelated ones). -/
theorem gocCalls_const (a b : String) (lid : Option String) (c0 : Conversation)
    (hab : a ≠ b)
    (hhash : c0.participantsHash = String.intercalate "|" (pySorted [a, b]))
    (hlid : c0.listingId = normListingId lid)
    (base : List Conversation)
    (hnokey : ∀ d ∈ base,
      ¬ (d.participantsHash = c0.participantsHash ∧ d.listingId = c0.listingId))
    (hfresh : ∀ d ∈ base, d.id ≠ c0.id) :
    ∀ (calls : List (Bool × Nat)) (u : Nat) (ms : List ChatMessage) (nid : Nat),
      (∀ r ∈ (gocCalls a b lid ⟨base ++ [{ c0 with updatedAt := u }], ms, nid⟩ calls).2,
        ∃ t, r = .ok { c0 with updatedAt := t }) ∧
      ∃ u', (gocCalls a b lid ⟨base ++ [{ c0 with updatedAt := u }], ms, nid⟩ calls).1
        = ⟨base ++ [{ c0 with updatedAt := u' }], ms, nid⟩ := by
  intro calls
  induction calls with
  | nil =>
    intro u ms nid
    exact ⟨by simp [gocCalls], u, rfl⟩
  | cons ft rest ih =>
    intro u ms nid
    obtain ⟨f, t⟩ := ft
    have hstep := goc_step base ms nid a b lid c0 u t f hab hhash hlid hnokey hfresh
    simp only [gocCalls, hstep]
    obtain ⟨hall, u', hfin⟩ := ih t ms nid
    refine ⟨?_, u', hfin⟩
    intro r hr
    rcases List.mem_cons.mp hr with hr | hr
    · exact ⟨t, hr⟩
    · exact hall r hr

/-- C5: for a fixed pair of distinct participants (given in either order) and
a fixed listing id, starting from a store with no matching conversation and
a fresh id: the creating call initializes `unread` to zero for both
participants with no `lastMessage`; every call of the sequence (creation
included) returns the very same conversation record except for `updatedAt`;
and the final store holds exactly one conversation with the canonical key. -/
theorem get_or_create_idempotent (st0 : ChatState) (a b : String) (lid : Option String)
    (f0 : Bool) (t0 : Nat) (rest : List (Bool × Nat))
    (hab : a ≠ b)
    (hnokey : ∀ d ∈ st0.conversations,
      ¬ (d.participantsHash = String.intercalate "|" (pySorted [a, b]) ∧
         d.listingId = normListingId lid))
    (hfresh : ∀ d ∈ st0.conversations, d.id ≠ st0.nextId) :
    (lookupCount (mkConvo st0.nextId (pySorted [a, b]) lid t0).unread a = 0 ∧
     lookupCount (mkConvo st0.nextId (pySorted [a, b]) lid t0).unread b = 0 ∧
     (mkConvo st0.nextId (pySorted [a, b]) lid t0).createdAt = t0 ∧
     (mkConvo st0.nextId (pySorted [a, b]) lid t0).lastMessage = none) ∧
    (∀ r ∈ (gocCalls a b lid st0 ((f0, t0) :: rest)).2,
      ∃ t, r = .ok { mkConvo st0.nextId (pySorted [a, b]) lid t0 with updatedAt := t }) ∧
    ((gocCalls a b lid st0 ((f0, t0) :: rest)).1.conversations.filter
        (fun d => d.participantsHash
            = (mkConvo st0.nextId (pySorted [a, b]) lid t0).participantsHash ∧
          d.listingId = (mkConvo st0.nextId (pySorted [a, b]) lid t0).listingId)).length
      = 1 := by
  have hsort : pySorted (pairOf a b f0) = pySorted [a, b] := by
    cases f0
    · rfl
    · exact pySorted_pair_comm a b hab
  have hcreate := goc_create st0 a b lid f0 t0 (by rw [hsort]; exact hnokey)
  rw [hsort] at hcreate
  set c0 := mkConvo st0.nextId (pySorted [a, b]) lid t0 with hc0
  have hc0hash : c0.participantsHash = String.intercalate "|" (pySorted [a, b]) := rfl
  have hc0lid : c0.listingId = normListingId lid := rfl
  have hc0id : c0.id = st0.nextId := rfl
  have hc0up : ({ c0 with updatedAt := t0 } : Conversation) = c0 := rfl
  have hnokey' : ∀ d ∈ st0.conversations,
      ¬ (d.participantsHash = c0.participantsHash ∧ d.listingId = c0.listingId) := by
    intro d hd
    rw [hc0hash, hc0lid]
    exact hnokey d hd
  have hfresh' : ∀ d ∈ st0.conversations, d.id ≠ c0.id := by
    intro d hd
    rw [hc0id]
    exact hfresh d hd
  have hconst := gocCalls_const a b lid c0 hab hc0hash hc0lid st0.conversations hnokey' hfresh'
      rest t0 st0.messages (st0.nextId + 1)
  refine ⟨⟨lookupCount_zero_init _ _ _, lookupCount_zero_init _ _ _, rfl, rfl⟩, ?_, ?_⟩
  · intro r hr
    simp only [gocCalls, hcreate] at hr
    rcases List.mem_cons.mp hr with hr | hr
    · exact ⟨t0, by rw [hr, hc0up]⟩
    · rw [hc0up] at hconst
      exact hconst.1 r hr
  · simp only [gocCalls, hcreate]
    rw [hc0up] at hconst
    obtain ⟨u', hfin⟩ := hconst.2
    rw [hfin]
    simp only [List.filter_append]
    have hbasefilter : st0.conversations.filter
        (fun d => d.participantsHash = c0.participantsHash ∧ d.listingId = c0.listingId)
        = [] := by
      rw [List.filter_eq_nil_iff]
      intro d hd
      simpa using hnokey' d hd
    rw [hbasefilter]
    simp

theorem get_or_create_idempotent_witness :
    (lookupCount (mkConvo emptyChat.nextId (pySorted ["alice", "bob"]) none 1).unread "alice" = 0 ∧
     lookupCount (mkConvo emptyChat.nextId (pySorted ["alice", "bob"]) none 1).unread "bob" = 0 ∧
     (mkConvo emptyChat.nextId (pySorted ["alice", "bob"]) none 1).createdAt = 1 ∧
     (mkConvo emptyChat.nextId (pySorted ["alice", "bob"]) none 1).lastMessage = none) ∧
    ((gocCalls "alice" "bob" none emptyChat ((true, 1) :: [(false, 5), (true, 9)])).1.conversations.filter
        (fun d => d.participantsHash
            = (mkConvo emptyChat.nextId (pySorted ["alice", "bob"]) none 1).participantsHash ∧
          d.listingId
            = (mkConvo emptyChat.nextId (pySorted ["alice", "bob"]) none 1).listingId)).length
      = 1 := by
  have h := get_or_create_idempotent emptyChat "alice" "bob" none true 1 [(false, 5), (true, 9)]
    (by decide) (by simp [emptyChat]) (by simp [emptyChat])
  exact ⟨h.1, h.2.2⟩

theorem mem_insertByIdDesc (m z : ChatMessage) (l : List ChatMessage) :
    z ∈ insertByIdDesc m l ↔ z = m ∨ z ∈ l := by
  induction l with
  | nil => simp [insertByIdDesc]
  | cons y ys ih =>
    by_cases h : y.id ≤ m.id
    · simp [insertByIdDesc, h]
    · simp only [insertByIdDesc, if_neg h, List.mem_cons, ih]
      tauto

theorem sorted_insertByIdDesc (m : ChatMessage) (l : List ChatMessage)
    (h : l.Sorted (fun x y => y.id ≤ x.id)) :
    (insertByIdDesc m l).Sorted (fun x y => y.id ≤ x.id) := by
  induction l with
  | nil => simp [insertByIdDesc]
  | cons y ys ih =>
    rw [List.sorted_cons] at h
    by_cases hle : y.id ≤ m.id
    · rw [insertByIdDesc, if_pos hle, List.sorted_cons]
      refine ⟨?_, List.sorted_cons.mpr h⟩
      intro z hz
      rcases List.mem_cons.mp hz with hz | hz
      · rw [hz]; exact hle
      · exact le_trans (h.1 z hz) hle
    · rw [insertByIdDesc, if_neg hle, List.sorted_cons]
      refine ⟨?_, ih h.2⟩
      intro z hz
      rcases (mem_insertByIdDesc m z ys).mp hz with hz | hz
      · rw [hz]; omega
      · exact h.1 z hz

theorem sorted_sortByIdDesc (l : List ChatMessage) :
    (sortByIdDesc l).Sorted (fun x y => y.id ≤ x.id) := by
  induction l with
  | nil => simp [sortByIdDesc]
  | cons m ms ih => exact sorted_insertByIdDesc m _ ih

theorem mem_sortByIdDesc (z : ChatMessage) (l : List ChatMessage) :
    z ∈ sortByIdDesc l ↔ z ∈ l := by
  induction l with
  | nil => simp [sortByIdDesc]
  | cons m ms ih =>
    rw [sortByIdDesc, List.foldr_cons, mem_insertByIdDesc]
    rw [sortByIdDesc] at ih
    simp [ih]

/-- C6: `list_messages` always returns messages in chronological (oldest
first, ascending id) order, every returned message belongs to the requested
conversation, and with `beforeId` only messages strictly older by id are
returned; concretely, after inserting m1..m5 in order, the first page of
size 2 is [m4, m5] and the page before m4 is [m2, m3]. -/
theorem list_messages_pagination :
    (∀ (st : ChatState) (cid : Nat) (before : Option Nat) (limit : Nat),
      (listMessages st cid before limit).Sorted (fun m1 m2 => m1.id ≤ m2.id) ∧
      (∀ m ∈ listMessages st cid before limit,
        m.convoId = cid ∧ ∀ b, before = some b → m.id < b)) ∧
    (listMessages demoFiveState 0 none 2).map (fun m => m.id) = [4, 5] ∧
    (listMessages demoFiveState 0 (some 4) 2).map (fun m => m.id) = [2, 3] := by
  refine ⟨?_, by decide, by decide⟩
  intro st cid before limit
  constructor
  · show ((((sortByIdDesc _).take limit).reverse).Pairwise _)
    rw [List.pairwise_reverse]
    exact List.Pairwise.sublist (List.take_sublist _ _) (sorted_sortByIdDesc _)
  · intro m hm
    have hmem : m ∈ st.messages.filter fun m =>
        decide (m.convoId = cid) &&
          match before with | some b => decide (m.id < b) | none => true := by
      have h1 := List.mem_reverse.mp hm
      exact (mem_sortByIdDesc m _).mp (List.mem_of_mem_take h1)
    have hp := (List.mem_filter.mp hmem).2
    rw [Bool.and_eq_true] at hp
    refine ⟨of_decide_eq_true hp.1, ?_⟩
    intro b hb
    rw [hb] at hp
    exact of_decide_eq_true hp.2

theorem list_messages_pagination_witness :
    (listMessages demoFiveState 0 (some 4) 2).Sorted (fun m1 m2 => m1.id ≤ m2.id) :=
  (list_messages_pagination.1 demoFiveState 0 (some 4) 2).1

theorem lookup_setKey (m : WSManager) (cid : String) (v : List Nat) (conns : List Nat)
    (h : m.lookup cid = some conns) :
    (WSManager.mk (setKey m.active cid v)).lookup cid = some v := by
  obtain ⟨l⟩ := m
  simp only [WSManager.lookup] at h ⊢
  induction l with
  | nil => simp at h
  | cons e es ih =>
    by_cases he : e.fst = cid
    · simp [setKey, he]
    · rw [List.find?_cons_of_neg _ (by simpa using he)] at h
      simp only [setKey, List.map_cons, if_neg he]
      rw [List.find?_cons_of_neg _ (by simpa using he)]
      exact ih h

theorem lookup_removeKey (m : WSManager) (cid : String) :
    (WSManager.mk (removeKey m.active cid)).lookup cid = none := by
  simp only [WSManager.lookup, removeKey]
  rw [List.find?_eq_none.mpr]
  · rfl
  · intro e he
    have := (List.mem_filter.mp he).2
    simpa using this

theorem disconnect_of_lookup_none (m : WSManager) (cid : String) (ws : Nat)
    (h : m.lookup cid = none) : m.disconnect cid ws = m := by
  unfold WSManager.disconnect
  rw [h]

theorem disconnect_lookup (m : WSManager) (cid : String) (ws : Nat) (conns : List Nat)
    (h : m.lookup cid = some conns) (hne : conns ≠ []) (hmem : ws ∈ conns) :
    (m.disconnect cid ws).lookup cid
      = (if conns.erase ws = [] then none else some (conns.erase ws)) := by
  unfold WSManager.disconnect
  rw [h]
  simp only [if_pos (And.intro hne hmem)]
  by_cases he : conns.erase ws = []
  · rw [if_pos he, if_pos he]
    exact lookup_removeKey m cid
  · rw [if_neg he, if_neg he]
    exact lookup_setKey m cid _ conns h

theorem foldl_disconnect_of_lookup_none (cid : String) (fs : List Nat) (m : WSManager)
    (h : m.lookup cid = none) :
    fs.foldl (fun acc ws => acc.disconnect cid ws) m = m := by
  induction fs with
  | nil => rfl
  | cons w ws ih =>
    rw [List.foldl_cons, disconnect_of_lookup_none m cid w h]
    exact ih

theorem erase_eq_nil_of_mem (l : List Nat) (w : Nat) (hw : w ∈ l) (h : l.erase w = []) :
    l = [w] := by
  cases l with
  | nil => simp at hw
  | cons x xs =>
    have hlen := congrArg List.length h
    rw [List.length_erase_of_mem hw] at hlen
    simp at hlen
    subst hlen
    simp at hw
    rw [hw]

/-- Folding `disconnect` over a duplicate-free set of members to drop:
the conversation's entry keeps exactly the survivors, and is popped when
none survive. -/
theorem foldl_disconnect_lookup (cid : String) :
    ∀ (fails : List Nat) (m : WSManager) (stored : List Nat),
      m.lookup cid = some stored → stored.Nodup → fails.Nodup →
      (∀ w ∈ fails, w ∈ stored) → stored ≠ [] →
      (fails.foldl (fun acc ws => acc.disconnect cid ws) m).lookup cid
        = (if stored.filter (fun w => !(fails.contains w)) = [] then none
           else some (stored.filter (fun w => !(fails.contains w)))) := by
  intro fails
  induction fails with
  | nil =>
    intro m stored h hnd _ _ hne
    have : stored.filter (fun w => !(([] : List Nat).contains w)) = stored := by
      simp
    rw [List.foldl_nil, this, if_neg hne, h]
  | cons w fs ih =>
    intro m stored h hnd hfnd hsub hne
    have hw : w ∈ stored := hsub w (by simp)
    have hd := disconnect_lookup m cid w stored h hne hw
    have hpred : stored.filter (fun x => !((w :: fs).contains x))
        = (stored.erase w).filter (fun x => !(fs.contains x)) := by
      rw [hnd.erase_eq_filter w, List.filter_filter]
      apply List.filter_congr
      intro x _
      simp only [List.contains_cons, Bool.not_or]
      cases hxw : (x == w) <;> cases hc : fs.contains x <;> simp [bne, hxw, hc]
    rw [List.foldl_cons]
    by_cases he : stored.erase w = []
    · have hsingle : stored = [w] := erase_eq_nil_of_mem stored w hw he
      have hnone : (m.disconnect cid w).lookup cid = none := by rw [hd, if_pos he]
      rw [foldl_disconnect_of_lookup_none cid fs _ hnone, hnone, hpred, he]
      simp
    · have hlook : (m.disconnect cid w).lookup cid = some (stored.erase w) := by
        rw [hd, if_neg he]
      have hsub' : ∀ v ∈ fs, v ∈ stored.erase w := by
        intro v hv
        have hvw : v ≠ w := by
          intro hvw
          rw [hvw] at hv
          exact (List.nodup_cons.mp hfnd).1 hv
        exact (List.mem_erase_of_ne hvw).mpr (hsub v (by simp [hv]))
      rw [ih (m.disconnect cid w) (stored.erase w) hlook (hnd.erase w)
        (List.nodup_cons.mp hfnd).2 hsub' he, hpred]

/-- The broadcast loop over a snapshot: deliveries are exactly the
successful sends in order, and the final registry is the fold of
`disconnect` over the failing connections. -/
theorem broadcast_spec_fold {D : Type} (cid : String) (data : D) (f : Nat → Bool) :
    ∀ (l : List Nat) (m0 : WSManager) (acc : List (Nat × D)),
      (l.foldl (fun acc ws => if f ws then (acc.1, acc.2 ++ [(ws, data)])
          else (acc.1.disconnect cid ws, acc.2)) (m0, acc))
        = ((l.filter (fun ws => !(f ws))).foldl (fun m ws => m.disconnect cid ws) m0,
           acc ++ (l.filter f).map (fun ws => (ws, data))) := by
  intro l
  induction l with
  | nil => intro m0 acc; simp
  | cons w ws ih =>
    intro m0 acc
    by_cases hf : f w = true
    · have hf' : (!(f w)) = false := by rw [hf]; rfl
      rw [List.foldl_cons, if_pos hf, ih]
      rw [List.filter_cons_of_neg (by simp [hf]), List.filter_cons_of_pos (by simp [hf])]
      simp
    · have hf0 : f w = false := by
        cases hq : f w
        · rfl
        · exact absurd hq hf
      rw [List.foldl_cons, if_neg (by simp [hf0]), ih]
      rw [List.filter_cons_of_pos (by simp [hf0]), List.filter_cons_of_neg (by simp [hf0])]
      simp

/-- C7: `broadcast` is a total function (every per-connection error is
swallowed after triggering cleanup, so it never raises to its caller); a
failing connection does not prevent delivery to the remaining connections
(the deliveries are exactly the successful sends, in snapshot order); the
final registry is exactly a `disconnect` of every failing connection — and
in it the conversation keeps exactly the surviving connections, with the
entry removed entirely when none survive. -/
theorem broadcast_isolation {D : Type} (m : WSManager) (cid : String) (data : D)
    (sendOk : Nat → Bool) (conns : List Nat)
    (hconns : m.lookup cid = some conns)
    (hnd : conns.Nodup)
    (hne : conns ≠ []) :
    (m.broadcast cid data sendOk).2 = (conns.filter sendOk).map (fun ws => (ws, data)) ∧
    (m.broadcast cid data sendOk).1
      = (conns.filter (fun ws => !(sendOk ws))).foldl (fun acc ws => acc.disconnect cid ws) m ∧
    (m.broadcast cid data sendOk).1.lookup cid
      = (if conns.filter sendOk = [] then none else some (conns.filter sendOk)) := by
  have hsnap : (m.lookup cid).getD [] = conns := by rw [hconns]; rfl
  have hbody : m.broadcast cid data sendOk
      = ((conns.filter (fun ws => !(sendOk ws))).foldl (fun acc ws => acc.disconnect cid ws) m,
         (conns.filter sendOk).map (fun ws => (ws, data))) := by
    unfold WSManager.broadcast
    rw [hsnap, broadcast_spec_fold]
    simp
  have hpred : conns.filter (fun w => !((conns.filter (fun ws => !(sendOk ws))).contains w))
      = conns.filter sendOk := by
    apply List.filter_congr
    intro x hx
    cases hS : sendOk x
    · have hmem : x ∈ conns.filter (fun ws => !(sendOk ws)) :=
        List.mem_filter.mpr ⟨hx, by simp [hS]⟩
      have : (conns.filter (fun ws => !(sendOk ws))).contains x = true :=
        List.elem_iff.mpr hmem
      rw [this]
      rfl
    · have hmem : x ∉ conns.filter (fun ws => !(sendOk ws)) := by
        intro hmem
        have := (List.mem_filter.mp hmem).2
        rw [hS] at this
        simp at this
      have : (conns.filter (fun ws => !(sendOk ws))).contains x = false := by
        cases hc : (conns.filter (fun ws => !(sendOk ws))).contains x
        · rfl
        · exact absurd (List.elem_iff.mp hc) hmem
      rw [this]
      rfl
  have hres := foldl_disconnect_lookup cid (conns.filter (fun ws => !(sendOk ws))) m conns
    hconns hnd (hnd.filter _) (fun w hw => (List.mem_filter.mp hw).1) hne
  rw [hpred] at hres
  rw [hbody]
  exact ⟨rfl, rfl, hres⟩

theorem broadcast_isolation_witness :
    ((WSManager.mk [("c1", [1, 2])]).broadcast "c1" "hello" (fun ws => ws ≠ 1)).2
      = [(2, "hello")] ∧
    ((WSManager.mk [("c1", [1, 2])]).broadcast "c1" "hello" (fun ws => ws ≠ 1)).1.lookup "c1"
      = some [2] := by
  have h := broadcast_isolation (WSManager.mk [("c1", [1, 2])]) "c1" "hello"
    (fun ws => ws ≠ 1) [1, 2] (by decide) (by decide) (by decide)
  refine ⟨?_, ?_⟩
  · rw [h.1]; decide
  · rw [h.2.2]; decide

theorem updateLinkedMessage_payments (st : PayState) (pid s : String) (pl : WebhookPayload) :
    (updateLinkedMessage st pid s pl).payments = st.payments := by
  cases h : st.paymentMessages.find? (fun m => m.paymentId = pid) <;>
    simp [updateLinkedMessage, h]

theorem updateLinkedMessage_wallets (st : PayState) (pid s : String) (pl : WebhookPayload) :
    (updateLinkedMessage st pid s pl).wallets = st.wallets := by
  cases h : st.paymentMessages.find? (fun m => m.paymentId = pid) <;>
    simp [updateLinkedMessage, h]

theorem updateLinkedMessage_ledger (st : PayState) (pid s : String) (pl : WebhookPayload) :
    (updateLinkedMessage st pid s pl).ledger = st.ledger := by
  cases h : st.paymentMessages.find? (fun m => m.paymentId = pid) <;>
    simp [updateLinkedMessage, h]

theorem updateLinkedMessage_webhookEvents (st : PayState) (pid s : String) (pl : WebhookPayload) :
    (updateLinkedMessage st pid s pl).webhookEvents = st.webhookEvents := by
  cases h : st.paymentMessages.find? (fun m => m.paymentId = pid) <;>
    simp [updateLinkedMessage, h]

theorem updateLinkedMessage_broadcasts (st : PayState) (pid s : String) (pl : WebhookPayload)
    (msg : PayMsg) (hmsg : st.paymentMessages.find? (fun m => m.paymentId = pid) = some msg) :
    (updateLinkedMessage st pid s pl).broadcasts
      = st.broadcasts ++ [⟨"payment.updated", msg.convoId, msg.id, pid, s⟩] := by
  simp [updateLinkedMessage, hmsg]

theorem find?_wallet_map (ws : List Wallet) (uid : String) (amt : Int) (w : Wallet)
    (h : ws.find? (fun x => x.userId = uid) = some w) :
    (ws.map fun x => if x.userId = uid then { x with balance := x.balance + amt } else x).find?
      (fun x => x.userId = uid) = some { w with balance := w.balance + amt } := by
  induction ws with
  | nil => simp at h
  | cons a as ih =>
    by_cases ha : a.userId = uid
    · rw [List.find?_cons_of_pos _ (by simpa using ha)] at h
      have haw : a = w := by injection h
      subst haw
      simp only [List.map_cons, if_pos ha]
      rw [List.find?_cons_of_pos _ (by simpa using ha)]
    · rw [List.find?_cons_of_neg _ (by simpa using ha)] at h
      simp only [List.map_cons, if_neg ha]
      rw [List.find?_cons_of_neg _ (by simpa using ha)]
      exact ih h

theorem walletBalance_creditWallet (ws : List Wallet) (uid : String) (amt : Int) :
    walletBalance (creditWallet ws uid amt) uid = walletBalance ws uid + amt := by
  unfold creditWallet
  cases hf : ws.find? (fun w => w.userId = uid) with
  | some w =>
    unfold walletBalance
    rw [find?_wallet_map ws uid amt w hf, hf]
  | none =>
    unfold walletBalance
    rw [List.find?_append, hf]
    simp

theorem eventRecorded_append_self (evs : List WebhookEventRec) (prov eid : String) :
    eventRecorded (evs ++ [⟨prov, eid⟩]) eid = true := by
  simp [eventRecorded]

/-- The idempotency gate: a delivery whose (truthy) event id is already
recorded is answered `already_processed` with no state change. -/
theorem paymentsWebhook_replay (st : PayState) (pl : WebhookPayload)
    (h1 : truthy pl.eventId = true)
    (h2 : eventRecorded st.webhookEvents (strOfOpt pl.eventId) = true) :
    paymentsWebhook st pl = (st, .okAlreadyProcessed) := by
  unfold paymentsWebhook
  rw [h1, h2]
  rfl

/-- C1: a webhook delivery carrying a fresh provider event id whose event
type is a recognized success transition, matching a stored payment with a
linked chat message, performs exactly one ledger append, credits the seller
wallet exactly once, emits exactly one `payment.updated` broadcast — and
a second delivery of the very same payload returns success with
`already_processed` and leaves the state exactly unchanged. -/
theorem webhook_duplicate_delivery_noop (st0 : PayState) (pl : WebhookPayload)
    (p : Payment) (msg : PayMsg)
    (hid : truthy pl.eventId = true)
    (hnew : eventRecorded st0.webhookEvents (strOfOpt pl.eventId) = false)
    (htype : isSuccessEvent pl.eventType = true)
    (hfind : findPayment st0.payments pl.orderId pl.providerPaymentId = some p)
    (hmsg : st0.paymentMessages.find? (fun m => m.paymentId = p.id) = some msg) :
    (paymentsWebhook st0 pl).2 = .ok ∧
    (paymentsWebhook st0 pl).1.ledger.length = st0.ledger.length + 1 ∧
    walletBalance (paymentsWebhook st0 pl).1.wallets p.sellerId
      = walletBalance st0.wallets p.sellerId + p.amount ∧
    ((paymentsWebhook st0 pl).1.broadcasts.filter
        (fun b => b.type = "payment.updated")).length
      = (st0.broadcasts.filter (fun b => b.type = "payment.updated")).length + 1 ∧
    paymentsWebhook (paymentsWebhook st0 pl).1 pl
      = ((paymentsWebhook st0 pl).1, .okAlreadyProcessed) := by
  have hguard : (truthy pl.eventId && eventRecorded st0.webhookEvents (strOfOpt pl.eventId))
      = false := by
    rw [hid, hnew]
    rfl
  have hfirst : paymentsWebhook st0 pl
      = (updateLinkedMessage
          { st0 with
            payments := st0.payments.map (fun q =>
              if q.id = p.id then
                { p with status := "PAID", providerPaymentId := pl.providerPaymentId,
                         providerRaw := some pl }
              else q),
            wallets := creditWallet st0.wallets p.sellerId p.amount,
            ledger := st0.ledger ++ [⟨p.sellerId, p.amount, "sale", some p.id⟩],
            webhookEvents :=
              recordEvent st0.webhookEvents pl.providerName (strOfOpt pl.eventId) }
          p.id "PAID" pl, .ok) := by
    unfold paymentsWebhook
    rw [hguard]
    simp only [Bool.false_eq_true, if_false, hfind, htype, if_true]
  have hmsg' : ({ st0 with
      payments := st0.payments.map (fun q =>
        if q.id = p.id then
          { p with status := "PAID", providerPaymentId := pl.providerPaymentId,
                   providerRaw := some pl }
        else q),
      wallets := creditWallet st0.wallets p.sellerId p.amount,
      ledger := st0.ledger ++ [⟨p.sellerId, p.amount, "sale", some p.id⟩],
      webhookEvents :=
        recordEvent st0.webhookEvents pl.providerName (strOfOpt pl.eventId) } :
        PayState).paymentMessages.find? (fun m => m.paymentId = p.id) = some msg := hmsg
  have hrec : (paymentsWebhook st0 pl).1.webhookEvents
      = st0.webhookEvents ++ [⟨pl.providerName, strOfOpt pl.eventId⟩] := by
    rw [hfirst]
    rw [updateLinkedMessage_webhookEvents]
    simp [recordEvent, hnew]
  have hrecorded : eventRecorded (paymentsWebhook st0 pl).1.webhookEvents
      (strOfOpt pl.eventId) = true := by
    rw [hrec]
    exact eventRecorded_append_self _ _ _
  refine ⟨by rw [hfirst], ?_, ?_, ?_, ?_⟩
  · rw [hfirst, updateLinkedMessage_ledger]
    simp
  · rw [hfirst, updateLinkedMessage_wallets]
    exact walletBalance_creditWallet st0.wallets p.sellerId p.amount
  · rw [hfirst, updateLinkedMessage_broadcasts _ _ _ _ msg hmsg']
    simp [List.filter_append]
  · exact paymentsWebhook_replay (paymentsWebhook st0 pl).1 pl hid hrecorded

/-- A payment table holding one PENDING payment with a linked chat message. -/
def pendingPayState : PayState :=
  { payments := [{ id := "p1", buyerId := "b", sellerId := "s", amount := 100,
                   status := "PENDING" }],
    wallets := [], ledger := [], webhookEvents := [],
    paymentMessages := [{ id := "m1", convoId := "c1", paymentId := "p1",
                          status := "PENDING" }],
    broadcasts := [] }

/-- A success-type webhook delivery for that payment. -/
def successPayload : WebhookPayload :=
  { event_id := some "e1", event_type := some "payment.succeeded", order_id := some "p1" }

theorem webhook_duplicate_delivery_noop_witness :
    (paymentsWebhook pendingPayState successPayload).2 = .ok ∧
    (paymentsWebhook pendingPayState successPayload).1.ledger.length
      = pendingPayState.ledger.length + 1 ∧
    walletBalance (paymentsWebhook pendingPayState successPayload).1.wallets "s"
      = walletBalance pendingPayState.wallets "s" + 100 ∧
    ((paymentsWebhook pendingPayState successPayload).1.broadcasts.filter
        (fun b => b.type = "payment.updated")).length
      = (pendingPayState.broadcasts.filter (fun b => b.type = "payment.updated")).length + 1 ∧
    paymentsWebhook (paymentsWebhook pendingPayState successPayload).1 successPayload
      = ((paymentsWebhook pendingPayState successPayload).1, .okAlreadyProcessed) :=
  webhook_duplicate_delivery_noop pendingPayState successPayload
    { id := "p1", buyerId := "b", sellerId := "s", amount := 100, status := "PENDING" }
    { id := "m1", convoId := "c1", paymentId := "p1", status := "PENDING" }
    (by decide) (by decide) (by decide) (by decide) (by decide)

/-- C2 (amended): a payment's status is only ever rewritten to PAID by a
recognized success event or to REFUNDED by a recognized refund event, and
replaying an already-recorded event id is a no-op answered with
`already_processed`; however PAID and REFUNDED are not terminal — a delivery
with a fresh event id overwrites the status unconditionally (e.g. a fresh
refund event moves a PAID payment to REFUNDED). -/
theorem webhook_status_transitions_amended (st : PayState) (pl : WebhookPayload) :
    (∀ q' ∈ (paymentsWebhook st pl).1.payments,
      q' ∈ st.payments ∨
      ∃ q, q ∈ st.payments ∧ q'.id = q.id ∧
        ((isSuccessEvent pl.eventType = true ∧ q'.status = "PAID") ∨
         (isRefundEvent pl.eventType = true ∧ q'.status = "REFUNDED"))) ∧
    (truthy pl.eventId = true →
      eventRecorded st.webhookEvents (strOfOpt pl.eventId) = true →
      paymentsWebhook st pl = (st, .okAlreadyProcessed)) := by
  constructor
  · intro q' hq'
    by_cases hguard : (truthy pl.eventId
        && eventRecorded st.webhookEvents (strOfOpt pl.eventId)) = true
    · left
      unfold paymentsWebhook at hq'
      rw [hguard] at hq'
      simpa using hq'
    · have hguard0 : (truthy pl.eventId
          && eventRecorded st.webhookEvents (strOfOpt pl.eventId)) = false := by
        cases hq : (truthy pl.eventId && eventRecorded st.webhookEvents (strOfOpt pl.eventId))
        · rfl
        · exact absurd hq hguard
      unfold paymentsWebhook at hq'
      rw [hguard0] at hq'
      simp only [Bool.false_eq_true, if_false] at hq'
      cases hp : findPayment st.payments pl.orderId pl.providerPaymentId with
      | none =>
        simp only [hp] at hq'
        left
        simpa using hq'
      | some p =>
        simp only [hp] at hq'
        by_cases hs : isSuccessEvent pl.eventType = true
        · rw [if_pos hs, updateLinkedMessage_payments] at hq'
          simp only at hq'
          rcases List.mem_map.mp hq' with ⟨q, hq, hmapped⟩
          by_cases hqp : q.id = p.id
          · right
            refine ⟨q, hq, ?_, Or.inl ⟨hs, ?_⟩⟩
            · rw [← hmapped]
              simp [hqp]
            · rw [← hmapped]
              simp [hqp]
          · left
            rw [← hmapped]
            simp [hqp, hq]
        · by_cases hr : isRefundEvent pl.eventType = true
          · rw [if_neg hs, if_pos hr, updateLinkedMessage_payments] at hq'
            simp only at hq'
            rcases List.mem_map.mp hq' with ⟨q, hq, hmapped⟩
            by_cases hqp : q.id = p.id
            · right
              refine ⟨q, hq, ?_, Or.inr ⟨hr, ?_⟩⟩
              · rw [← hmapped]
                simp [hqp]
              · rw [← hmapped]
                simp [hqp]
            · left
              rw [← hmapped]
              simp [hqp, hq]
          · rw [if_neg hs, if_neg hr] at hq'
            left
            simpa using hq'
  · intro h1 h2
    unfold paymentsWebhook
    rw [h1, h2]
    rfl

theorem webhook_status_transitions_amended_witness :
    paymentsWebhook
        { paidPayState with webhookEvents := [⟨"unknown", "e2"⟩] } refundPayload
      = ({ paidPayState with webhookEvents := [⟨"unknown", "e2"⟩] }, .okAlreadyProcessed) :=
  (webhook_status_transitions_amended
    { paidPayState with webhookEvents := [⟨"unknown", "e2"⟩] } refundPayload).2
    (by decide) (by decide)

end CardTraders
